import Mathlib

/-!
Verification of the MegaFlow SDK batch-transaction engine.

This file gives a shallow embedding, in Lean 4, of the pure core of the
MegaFlow SDK (a TypeScript client SDK that composes on-chain calls into a
single atomic batch transaction):

* the revert-payload decoder `decodeRevertError` / `decodePanicCode`
  (src/utils: hex-string classification by 4-byte selector, ABI decoding
  of `Error(string)`, `Panic(uint256)` and the router's custom errors,
  including the recursive `CallFailed(uint256,bytes)` case);
* the per-call result decoder `parseCallResults` with its three strategies
  (raw return bytes, `CallExecuted` event scan, optimistic fallback);
* the safe-approve call builder `buildSafeApproveCalls`;
* the builder's call ledger (calls + recorded operations) and its
  queueing operations, with a small heap model for JS reference aliasing
  of `getState()` snapshots;
* `simulate()`, `executeSync()` and `executeRealtime()` over an explicit
  network-response environment (network effects are suspension points whose
  outcomes are supplied by the environment; exceptions are `Except`);
* the session wrapper's nonce cache (`getNextNonce` / `resetNonce`).

Hex data is modelled at the character level (TypeScript `Hex` values are
`0x`-prefixed strings and the source manipulates them as strings); byte
sequences are lists of naturals.
-/

namespace MegaFlow

/-! ## Bytes and hex strings -/

/-- Byte sequences (each entry is one byte value). -/
abbrev Bytes := List Nat

/-- Value of a hex digit character, `none` for a non-hex-digit. -/
def hexDigitVal? (c : Char) : Option Nat :=
  if '0' ≤ c ∧ c ≤ '9' then some (c.toNat - '0'.toNat)
  else if 'a' ≤ c ∧ c ≤ 'f' then some (c.toNat - 'a'.toNat + 10)
  else if 'A' ≤ c ∧ c ≤ 'F' then some (c.toNat - 'A'.toNat + 10)
  else none

/-- Parse a run of hex digit characters (no `0x` prefix) into bytes,
two characters per byte; fails on an odd-length run or a non-hex digit
(modelling a thrown `viem` decoding error). -/
def hexToBytes? : List Char → Option Bytes
  | [] => some []
  | [_] => none
  | c1 :: c2 :: rest => do
      let hi ← hexDigitVal? c1
      let lo ← hexDigitVal? c2
      let bs ← hexToBytes? rest
      some ((16 * hi + lo) :: bs)

/-- The two lowercase hex characters of one byte. -/
def byteToHexChars (b : Nat) : List Char :=
  [Nat.digitChar (b / 16 % 16), Nat.digitChar (b % 16)]

/-- Render bytes as a `0x`-prefixed lowercase hex character string
(the `Hex` string `viem` returns for a decoded `bytes` value). -/
def bytesToHexChars (bs : Bytes) : List Char :=
  '0' :: 'x' :: (bs.map byteToHexChars).flatten

/-! ## ABI decoding primitives

Minimal big-endian ABI word reading, mirroring what `viem`'s
`decodeAbiParameters` does for the parameter shapes the SDK decodes:
`[string]`, `[uint256]`, `[uint256, bytes]` and `[(bool, bytes)[]]`.
Any out-of-bounds read models a thrown (and, in the SDK, caught) error. -/

/-- Big-endian value of a byte list. -/
def beVal (l : Bytes) : Nat := l.foldl (fun a b => a * 256 + b) 0

/-- Read a 32-byte big-endian word at the head of `b`. -/
def word? (b : Bytes) : Option Nat :=
  if 32 ≤ b.length then some (beVal (b.take 32)) else none

/-- Decode ABI parameters `[string]`: head word is the offset of the
string data; at the offset a length word followed by the raw bytes. -/
def decodeStringBytes? (b : Bytes) : Option Bytes := do
  let off ← word? b
  let len ← word? (b.drop off)
  some ((b.drop (off + 32)).take len)

/-- Decode ABI parameters `[uint256, bytes]` (the payload of the router's
`CallFailed(uint256 callIndex, bytes returnData)` custom error). -/
def decodeUintBytes? (b : Bytes) : Option (Nat × Bytes) := do
  let idx ← word? b
  let off ← word? (b.drop 32)
  let len ← word? (b.drop off)
  some (idx, (b.drop (off + 32)).take len)

/-- Decode one `(bool success, bytes returnData)` tuple located at byte
offset `base` of the ABI payload `b`. -/
def decodeTuple? (b : Bytes) (base : Nat) : Option (Bool × Bytes) := do
  let sWord ← word? (b.drop base)
  let s ← if sWord = 0 then some false else if sWord = 1 then some true else none
  let boff ← word? (b.drop (base + 32))
  let blen ← word? (b.drop (base + boff))
  some (s, (b.drop (base + boff + 32)).take blen)

/-- Decode ABI parameters `[(bool, bytes)[]]`: the return shape of the
router's `executeBatch`. Head word is the array offset; at the offset a
count word followed by one offset word per element. -/
def decodeResults? (b : Bytes) : Option (List (Bool × Bytes)) := do
  let arrOff ← word? b
  let n ← word? (b.drop arrOff)
  let base := arrOff + 32
  (List.range n).mapM (fun i => do
    let tOff ← word? (b.drop (base + 32 * i))
    decodeTuple? b (base + tOff))

/-! ## Revert error decoder (src/utils `decodeRevertError`) -/

/-- Panic-code table of `decodePanicCode`; unknown codes render as raw hex. -/
def decodePanicCode (code : Nat) : String :=
  if code = 0x00 then "generic panic"
  else if code = 0x01 then "assert failed"
  else if code = 0x11 then "arithmetic overflow/underflow"
  else if code = 0x12 then "division by zero"
  else if code = 0x21 then "invalid enum value"
  else if code = 0x22 then "storage access out of bounds"
  else if code = 0x31 then "pop on empty array"
  else if code = 0x32 then "array index out of bounds"
  else if code = 0x41 then "out of memory"
  else if code = 0x51 then "uninitialized function pointer"
  else "code 0x" ++ String.mk (Nat.toDigits 16 code)

/-- Selector of standard `Error(string)` reverts. -/
def errorSelector : List Char := "0x08c379a0".data

/-- Selector of compiler `Panic(uint256)` reverts. -/
def panicSelector : List Char := "0x4e487b71".data

/-- Selector of the router's `CallFailed(uint256,bytes)` custom error. -/
def callFailedSelector : List Char := "0x85d9d0b8".data

/-- The router's custom-error selector table (`customErrors` in the source). -/
def customErrorTable : List (List Char × String) :=
  [("0x3e3f8f73".data, "ReentrancyGuard: re-entrant call"),
   ("0xfe9ba5cd".data, "InsufficientETH: not enough ETH sent"),
   ("0xd4a5e2bf".data, "InsufficientFee: flat fee not covered"),
   ("0x1425f8f8".data, "InvalidTarget: call target is address(0)"),
   ("0x4a3f0f2d".data, "EmptyCalldata: callData must not be empty"),
   ("0x85d9d0b8".data, "CallFailed: one of the batch calls reverted"),
   ("0xb5e9e6d2".data, "FeeTransferFailed: could not send fee to collector"),
   ("0x750b219c".data, "SweepFailed: could not return leftover ETH")]

/-- Message for empty / too-short revert payloads. -/
def noDataMsg : String := "Execution reverted with no data"

/-- Fuel-indexed body of `decodeRevertError`. The TypeScript function
recurses on the strictly smaller inner payload of a `CallFailed` error;
here the recursion is paid for by a fuel argument, and
`decodeRevertFuel_congr` below shows any fuel above the input length
yields the same answer — i.e. the recursion terminates. -/
def decodeRevertFuel : Nat → List Char → String
  | 0, _ => noDataMsg
  | fuel + 1, chars =>
    if chars.length < 10 then noDataMsg
    else if (chars.take 10).map Char.toLower = errorSelector then
      match (hexToBytes? (chars.drop 10)).bind decodeStringBytes? with
      | some msgBytes => "Reverted: " ++ String.mk (msgBytes.map Char.ofNat)
      | none => "Reverted (Error selector found but decode failed)"
    else if (chars.take 10).map Char.toLower = panicSelector then
      match (hexToBytes? (chars.drop 10)).bind word? with
      | some code => "Panic: " ++ decodePanicCode code
      | none => "Panic: unknown code"
    else
      match customErrorTable.lookup ((chars.take 10).map Char.toLower) with
      | some msg =>
        if (chars.take 10).map Char.toLower = callFailedSelector then
          match (hexToBytes? (chars.drop 10)).bind decodeUintBytes? with
          | some (idx, inner) =>
            "Call #" ++ toString idx ++ " failed → " ++
              decodeRevertFuel fuel (bytesToHexChars inner)
          | none => msg
        else msg
      | none =>
        "Reverted with unknown selector " ++
          String.mk ((chars.take 10).map Char.toLower)

/-- `decodeRevertError` over the characters of the `Hex` input string. -/
def decodeRevertError (chars : List Char) : String :=
  decodeRevertFuel (chars.length + 1) chars

/-! ## Core data model (src/types) -/

/-- One call of a batch (`MegaCall` in types.ts): target address, ETH value
in wei, and the `0x`-prefixed calldata hex string. -/
structure MegaCall where
  target : String
  value : Nat
  callData : String
deriving DecidableEq, Repr

/-- Per-call result (`MegaCallResult` in types.ts); `returnData` is the raw
returned byte string. -/
structure MegaCallResult where
  success : Bool
  returnData : Bytes
deriving DecidableEq, Repr

/-- A receipt log entry, at the level of `viem`'s `decodeEventLog` outcome
against the router ABI: a decoded `CallExecuted` event, a decoded
`BatchExecuted` event, or a log that does not decode (another contract's
event — the source's caught decode failure). -/
inductive LogEvent where
  | callExecuted (callIndex : Nat) (target : String) (value : Nat) (success : Bool)
  | batchExecuted (sender : String) (callCount : Nat) (totalValue : Nat)
  | unrelated
deriving DecidableEq, Repr

/-- The part of a transaction receipt the SDK consumes. -/
structure Receipt where
  logs : List LogEvent
  gasUsed : Nat
deriving DecidableEq, Repr

/-! ## Per-call result decoding (src/utils `parseCallResults`) -/

/-- The `(callIndex, success)` payload of a decoded `CallExecuted` log. -/
def logCallExecuted? : LogEvent → Option (Nat × Bool)
  | LogEvent.callExecuted i _ _ s => some (i, s)
  | _ => none

/-- The entry `resultMap.get i` after the source's event scan: the map is
populated in log order with `Map.set`, so the last `CallExecuted` event
with index `i` wins. -/
def lastExecuted (logs : List LogEvent) (i : Nat) : Option Bool :=
  (((logs.filterMap logCallExecuted?).filter (fun p => p.1 = i)).getLast?).map Prod.snd

/-- `resultMap.size > 0`: at least one log decoded as `CallExecuted`. -/
def hasExecutedEvent (logs : List LogEvent) : Bool :=
  logs.any (fun l => (logCallExecuted? l).isSome)

/-- Strategies 2 and 3 of `parseCallResults`: event scan with optimistic
default, or the pure optimistic fallback when no event decoded. -/
def parseFromLogs (receipt : Receipt) (callCount : Nat) : List MegaCallResult :=
  if hasExecutedEvent receipt.logs then
    (List.range callCount).map (fun i =>
      match lastExecuted receipt.logs i with
      | some s => { success := s, returnData := [] }
      | none => { success := true, returnData := [] })
  else
    (List.range callCount).map (fun _ => { success := true, returnData := [] })

/-- `parseCallResults(receipt, callCount, rawReturnData?)`: strategy 1
ABI-decodes the raw `executeBatch` return value as `(bool, bytes)[]` when
present and non-trivial; otherwise (or when that decode fails) falls
through to the event scan and the optimistic fallback. -/
def parseCallResults (receipt : Receipt) (callCount : Nat)
    (rawReturnData : Option (List Char)) : List MegaCallResult :=
  match rawReturnData with
  | some raw =>
    if 2 < raw.length then
      match (hexToBytes? (raw.drop 2)).bind decodeResults? with
      | some results => results.map (fun r => { success := r.1, returnData := r.2 })
      | none => parseFromLogs receipt callCount
    else parseFromLogs receipt callCount
  | none => parseFromLogs receipt callCount

/-! ## Gas buffer and safe-approve helpers (src/utils) -/

/-- `applyMegaethGasBuffer(estimate, bufferPct = 10)`. -/
def applyMegaethGasBuffer (estimate bufferPct : Nat) : Nat :=
  estimate * (100 + bufferPct) / 100

/-- JS `String.prototype.padStart(n, c)` on a character list. -/
def padStart (n : Nat) (c : Char) (l : List Char) : List Char :=
  List.replicate (n - l.length) c ++ l

/-- JS `Nat.toString(16)` (lowercase hex digits). -/
def natToHexChars (n : Nat) : List Char := Nat.toDigits 16 n

/-- The `approveCalldata` closure of `buildSafeApproveCalls`:
`0x095ea7b3` + 32-byte-padded spender + 32-byte-padded amount. -/
def approveCalldata (spender : String) (amt : Nat) : String :=
  "0x095ea7b3" ++ String.mk (padStart 64 '0' (spender.data.drop 2)) ++
    String.mk (padStart 64 '0' (natToHexChars amt))

/-- `buildSafeApproveCalls`: reset-to-zero first when the current allowance
is non-zero and differs from the target amount, then set the target. -/
def buildSafeApproveCalls (token spender : String) (amount currentAllowance : Nat) :
    List MegaCall :=
  (if 0 < currentAllowance ∧ currentAllowance ≠ amount then
    [{ target := token, value := 0, callData := approveCalldata spender 0 }]
  else []) ++
  [{ target := token, value := 0, callData := approveCalldata spender amount }]

/-! ## Failed-call-index extraction (builder `extractFailedCallIndex`)

The source scans the error message with `/CallFailed\((\d+)/` and then
`/call\s*#?\s*(\d+)/i`; here each regex is interpreted directly as a
first-position-that-matches scan. -/

/-- Leading decimal-digit run. -/
def digitRun (l : List Char) : List Char := l.takeWhile Char.isDigit

/-- Numeric value of a decimal-digit run (`parseInt(ds, 10)`). -/
def natOfDigits (ds : List Char) : Nat :=
  ds.foldl (fun a c => a * 10 + (c.toNat - '0'.toNat)) 0

/-- Whitespace as matched by the regexes' `\s`. -/
def isSpaceChar (c : Char) : Bool :=
  c = ' ' ∨ c = '\t' ∨ c = '\n' ∨ c = '\r'

/-- Match `/CallFailed\((\d+)/` anchored at the start of `l`. -/
def matchCallFailedAt (l : List Char) : Option Nat :=
  if "CallFailed(".data.isPrefixOf l then
    let ds := digitRun (l.drop 11)
    if ds.isEmpty then none else some (natOfDigits ds)
  else none

/-- Match `/call\s*#?\s*(\d+)/i` anchored at the start of `l`. -/
def matchCallIndexAt (l : List Char) : Option Nat :=
  if (l.take 4).map Char.toLower = "call".data then
    let r1 := (l.drop 4).dropWhile isSpaceChar
    let r2 := if r1.head? = some '#' then r1.drop 1 else r1
    let r3 := r2.dropWhile isSpaceChar
    let ds := digitRun r3
    if ds.isEmpty then none else some (natOfDigits ds)
  else none

/-- First position (left to right) where the anchored matcher succeeds. -/
def firstMatch (f : List Char → Option Nat) : List Char → Option Nat
  | [] => f []
  | c :: rest =>
    match f (c :: rest) with
    | some n => some n
    | none => firstMatch f rest

/-- `extractFailedCallIndex(errorMessage)`. -/
def extractFailedCallIndex (msg : List Char) : Option Nat :=
  match firstMatch matchCallFailedAt msg with
  | some n => some n
  | none => firstMatch matchCallIndexAt msg

/-! ## Error codes and the network environment -/

/-- `MegaFlowErrorCode` (types.ts). -/
inductive MegaFlowErrorCode where
  | EMPTY_BATCH
  | WALLET_NOT_CONNECTED
  | NO_ACCOUNT
  | SIMULATION_FAILED
  | EXECUTION_FAILED
  | INSUFFICIENT_BALANCE
  | INSUFFICIENT_ALLOWANCE
  | KYBER_API_ERROR
  | NETWORK_ERROR
  | USER_REJECTED
  | TIMEOUT
deriving DecidableEq, Repr

/-- One network round trip performed by the orchestrator (used to show the
empty-batch precondition fires before any network operation). -/
inductive NetOp where
  | readCalculateRequiredETH
  | simulateContract
  | estimateContractGas
deriving DecidableEq, Repr

/-- Responses of the external chain client for one batch attempt.

Every network operation is an asynchronous suspension point whose outcome
(success value or thrown error message) the environment fixes up front:
`simulateContract` yields the simulated per-call results together with the
validated, ready-to-sign request (abstracted as a string), as a function of
the call list, attached value, optional gas override and optional account. -/
structure ChainEnv where
  readRequiredETH : Except String Nat
  simulateContract :
    List MegaCall → Nat → Option Nat → Option String →
      Except String (List MegaCallResult × String)
  estimateContractGas : List MegaCall → Nat → Except String Nat
  signTransaction : String → Except String String
  rpcRequest : String → String → Except String Receipt
  perfStart : Nat
  perfEnd : Nat

/-- `MegaFlowSimulationResult` (types.ts): optional fields are `none` when
the source leaves them `undefined`. -/
structure MegaFlowSimulationResult where
  success : Bool
  results : Option (List MegaCallResult) := none
  gasEstimate : Option Nat := none
  error : Option String := none
  revertReason : Option String := none
  failedCallIndex : Option Nat := none
deriving DecidableEq, Repr

/-- The failure value `simulate()` returns from its catch block. -/
def simFailure (e : String) : MegaFlowSimulationResult :=
  { success := false, error := some e,
    revertReason := some (decodeRevertError e.data),
    failedCallIndex := extractFailedCallIndex e.data }

/-- `calculateRequiredETH()`: returns 0 with no network call on an empty
ledger, otherwise reads the router view function. -/
def calculateRequiredETH (calls : List MegaCall) (env : ChainEnv) :
    Except String Nat × List NetOp :=
  if calls.length = 0 then (Except.ok 0, [])
  else (env.readRequiredETH, [NetOp.readCalculateRequiredETH])

/-- `simulate()`: throws the typed `EMPTY_BATCH` error on an empty ledger
(before any network operation); otherwise catches every network failure and
returns it as a `success := false` value. The second component records the
network operations performed. -/
def simulate (calls : List MegaCall) (account : Option String) (env : ChainEnv) :
    Except MegaFlowErrorCode MegaFlowSimulationResult × List NetOp :=
  if calls.isEmpty then (Except.error MegaFlowErrorCode.EMPTY_BATCH, [])
  else
    match calculateRequiredETH calls env with
    | (Except.error e, tr) => (Except.ok (simFailure e), tr)
    | (Except.ok requiredETH, tr) =>
      match env.simulateContract calls requiredETH none account with
      | Except.error e =>
        (Except.ok (simFailure e), tr ++ [NetOp.simulateContract])
      | Except.ok (result, _) =>
        match env.estimateContractGas calls requiredETH with
        | Except.error e =>
          (Except.ok (simFailure e),
           tr ++ [NetOp.simulateContract, NetOp.estimateContractGas])
        | Except.ok gasEstimate =>
          (Except.ok { success := true, results := some result,
                       gasEstimate := some (applyMegaethGasBuffer gasEstimate 10) },
           tr ++ [NetOp.simulateContract, NetOp.estimateContractGas])

/-! ## Synchronous execution (builder `executeSync` / `executeRealtime`) -/

/-- How an `execute*` call ends exceptionally: a typed precondition error
raised before any network I/O, or a propagated network/chain error. -/
inductive ExecError where
  | flow (code : MegaFlowErrorCode)
  | network (msg : String)
deriving DecidableEq, Repr

/-- `ExecuteOptions` (types.ts). -/
structure ExecuteOptions where
  gasLimit : Option Nat := none
  maxFeePerGas : Option Nat := none
  maxPriorityFeePerGas : Option Nat := none
  nonce : Option Nat := none
deriving DecidableEq, Repr

/-- `MegaFlowSyncResult` (types.ts). -/
structure MegaFlowSyncResult where
  receipt : Receipt
  results : List MegaCallResult
  gasUsed : Nat
  executionTimeMs : Nat
deriving DecidableEq, Repr

/-- `executeSync(options)`: precondition checks, required value, dry call
for the validated request, sign, then submit via the
`eth_sendRawTransactionSync` RPC method for an in-round-trip receipt. -/
def executeSync (calls : List MegaCall) (walletConnected : Bool)
    (account : Option String) (options : ExecuteOptions) (env : ChainEnv) :
    Except ExecError MegaFlowSyncResult :=
  if calls.isEmpty then Except.error (ExecError.flow MegaFlowErrorCode.EMPTY_BATCH)
  else if walletConnected = false then
    Except.error (ExecError.flow MegaFlowErrorCode.WALLET_NOT_CONNECTED)
  else
    match account with
    | none => Except.error (ExecError.flow MegaFlowErrorCode.NO_ACCOUNT)
    | some acct =>
      match (calculateRequiredETH calls env).1 with
      | Except.error e => Except.error (ExecError.network e)
      | Except.ok requiredETH =>
        match env.simulateContract calls requiredETH options.gasLimit (some acct) with
        | Except.error e => Except.error (ExecError.network e)
        | Except.ok (_, request) =>
          match env.signTransaction request with
          | Except.error e => Except.error (ExecError.network e)
          | Except.ok signedTx =>
            match env.rpcRequest "eth_sendRawTransactionSync" signedTx with
            | Except.error e => Except.error (ExecError.network e)
            | Except.ok receipt =>
              Except.ok { receipt := receipt,
                          results := parseCallResults receipt calls.length none,
                          gasUsed := receipt.gasUsed,
                          executionTimeMs := env.perfEnd - env.perfStart }

/-- `executeRealtime(options)`: the same steps as `executeSync`, submitting
via the `realtime_sendRawTransaction` RPC method. -/
def executeRealtime (calls : List MegaCall) (walletConnected : Bool)
    (account : Option String) (options : ExecuteOptions) (env : ChainEnv) :
    Except ExecError MegaFlowSyncResult :=
  if calls.isEmpty then Except.error (ExecError.flow MegaFlowErrorCode.EMPTY_BATCH)
  else if walletConnected = false then
    Except.error (ExecError.flow MegaFlowErrorCode.WALLET_NOT_CONNECTED)
  else
    match account with
    | none => Except.error (ExecError.flow MegaFlowErrorCode.NO_ACCOUNT)
    | some acct =>
      match (calculateRequiredETH calls env).1 with
      | Except.error e => Except.error (ExecError.network e)
      | Except.ok requiredETH =>
        match env.simulateContract calls requiredETH options.gasLimit (some acct) with
        | Except.error e => Except.error (ExecError.network e)
        | Except.ok (_, request) =>
          match env.signTransaction request with
          | Except.error e => Except.error (ExecError.network e)
          | Except.ok signedTx =>
            match env.rpcRequest "realtime_sendRawTransaction" signedTx with
            | Except.error e => Except.error (ExecError.network e)
            | Except.ok receipt =>
              Except.ok { receipt := receipt,
                          results := parseCallResults receipt calls.length none,
                          gasUsed := receipt.gasUsed,
                          executionTimeMs := env.perfEnd - env.perfStart }

/-! ## Nonce cache (client `getNextNonce` / `resetNonce`) -/

/-- The client's local nonce cache: lowercased address keys to the last
issued nonce. Insertion conses a binding and lookup takes the first match,
modelling `Map.set` / `Map.get`. JS numbers (with the `-1` absent-entry
default) are integers. -/
abbrev NonceCache := List (String × Int)

/-- Lowercase an address string (`address.toLowerCase()`). -/
def lowerStr (s : String) : String := String.mk (s.data.map Char.toLower)

/-- `getNextNonce(address)` given the network's reported pending nonce:
issues `max(networkNonce, lastUsed + 1)` and immediately caches it. -/
def getNextNonce (networkNonce : Int) (cache : NonceCache) (address : String) :
    Int × NonceCache :=
  let key := lowerStr address
  let lastUsed := ((cache.lookup key).getD (-1))
  let nonce := max networkNonce (lastUsed + 1)
  (nonce, (key, nonce) :: cache)

/-- `resetNonce(address)`: evict the cached entry for the address. -/
def resetNonce (cache : NonceCache) (address : String) : NonceCache :=
  cache.filter (fun p => p.1 ≠ lowerStr address)

/-! ## Call ledger (builder queueing operations) -/

/-- `OperationType` (types.ts). -/
inductive OperationType where
  | transfer
  | approve
  | safeApprove
  | swap
  | wrap
  | unwrap
  | kyberSwap
  | nftTransfer
  | custom
deriving DecidableEq, Repr

/-- `RecordedOperation` (types.ts); metadata is a key-value list. -/
structure RecordedOperation where
  type : OperationType
  call : MegaCall
  metadata : Option (List (String × String)) := none
  timestamp : Nat
deriving DecidableEq, Repr

/-- The builder's queueing state: the call list and the parallel
operation-record list. -/
structure BuilderQueue where
  calls : List MegaCall
  operations : List RecordedOperation
deriving DecidableEq, Repr

/-- The fresh builder's queue. -/
def emptyQueue : BuilderQueue := { calls := [], operations := [] }

/-- `recordOperation(type, call, metadata?)` at wall-clock time `now`. -/
def recordOperation (st : BuilderQueue) (type : OperationType) (call : MegaCall)
    (metadata : Option (List (String × String))) (now : Nat) : BuilderQueue :=
  { st with
    operations := st.operations ++
      [{ type := type, call := call, metadata := metadata, timestamp := now }] }

/-- `add(target, callData, value)`: push the call and record it. -/
def addRaw (st : BuilderQueue) (target : String) (callData : String) (value : Nat)
    (now : Nat) : BuilderQueue :=
  let call : MegaCall := { target := target, value := value, callData := callData }
  recordOperation { st with calls := st.calls ++ [call] } OperationType.custom call none now

/-- The builder's queueing operations. ABI argument encoding is delegated
to the external `encodeFunctionData` collaborator, abstracted below as a
function from function name and printed arguments to calldata. -/
inductive BuilderOp where
  | add (target : String) (callData : String) (value : Nat)
  | addCall (target : String) (functionName : String) (args : List String) (value : Nat)
  | sendETH (dst : String) (value : Nat)
  | approve (token spender : String) (amount : Nat)
  | safeApprove (token spender : String) (amount currentAllowance : Nat)
  | transfer (token dst : String) (amount : Nat)
  | transferFrom (token sender dst : String) (amount : Nat)
  | multiTransfer (token : String) (transfers : List (String × Nat))
  | transferNFT (nft sender dst : String) (tokenId : Nat)
  | approveNFT (nft dst : String) (tokenId : Nat)
  | setApprovalForAll (nft operator : String) (approved : Bool)
  | wrapETH (weth : String) (amount : Nat)
  | unwrapWETH (weth : String) (amount : Nat)
  | swapExactTokensForTokens (router : String) (amountIn amountOutMin : Nat)
      (path : List String) (dst : String) (deadline : Nat)
  | swapExactETHForTokens (router : String) (amountIn amountOutMin : Nat)
      (path : List String) (dst : String) (deadline : Nat)
  | swapExactTokensForETH (router : String) (amountIn amountOutMin : Nat)
      (path : List String) (dst : String) (deadline : Nat)
  | approveAndSwap (token router : String) (amountIn amountOutMin : Nat)
      (path : List String) (dst : String) (deadline : Nat)
  | kyberSwap (routerAddress : String) (data : String) (value : Nat)
  | pop
  | clear

/-- Abstract `encodeFunctionData`: function name and printed arguments to a
calldata hex string. -/
abbrev Enc := String → List String → String

/-- One builder method application, translated case by case from
builder.ts. `enc` abstracts `encodeFunctionData`; `now` is `Date.now()`. -/
def applyOp (enc : Enc) (now : Nat) (st : BuilderQueue) : BuilderOp → BuilderQueue
  | BuilderOp.add target callData value => addRaw st target callData value now
  | BuilderOp.addCall target fn args value => addRaw st target (enc fn args) value now
  | BuilderOp.sendETH dst value =>
    let call : MegaCall := { target := dst, value := value, callData := "0x00" }
    recordOperation { st with calls := st.calls ++ [call] } OperationType.custom call
      (some [("type", "sendETH"), ("to", dst), ("value", toString value)]) now
  | BuilderOp.approve token spender amount =>
    addRaw st token (enc "approve" [spender, toString amount]) 0 now
  | BuilderOp.safeApprove token spender amount currentAllowance =>
    (buildSafeApproveCalls token spender amount currentAllowance).foldl
      (fun acc call =>
        recordOperation { acc with calls := acc.calls ++ [call] }
          OperationType.safeApprove call
          (some [("token", token), ("spender", spender), ("amount", toString amount)]) now)
      st
  | BuilderOp.transfer token dst amount =>
    addRaw st token (enc "transfer" [dst, toString amount]) 0 now
  | BuilderOp.transferFrom token sender dst amount =>
    addRaw st token (enc "transferFrom" [sender, dst, toString amount]) 0 now
  | BuilderOp.multiTransfer token transfers =>
    transfers.foldl
      (fun acc t => addRaw acc token (enc "transfer" [t.1, toString t.2]) 0 now) st
  | BuilderOp.transferNFT nft sender dst tokenId =>
    addRaw st nft (enc "safeTransferFrom" [sender, dst, toString tokenId]) 0 now
  | BuilderOp.approveNFT nft dst tokenId =>
    addRaw st nft (enc "approve" [dst, toString tokenId]) 0 now
  | BuilderOp.setApprovalForAll nft operator approved =>
    addRaw st nft (enc "setApprovalForAll" [operator, toString approved]) 0 now
  | BuilderOp.wrapETH weth amount => addRaw st weth (enc "deposit" []) amount now
  | BuilderOp.unwrapWETH weth amount =>
    addRaw st weth (enc "withdraw" [toString amount]) 0 now
  | BuilderOp.swapExactTokensForTokens router amountIn amountOutMin path dst deadline =>
    addRaw st router
      (enc "swapExactTokensForTokens"
        ([toString amountIn, toString amountOutMin] ++ path ++ [dst, toString deadline]))
      0 now
  | BuilderOp.swapExactETHForTokens router amountIn amountOutMin path dst deadline =>
    addRaw st router
      (enc "swapExactETHForTokens"
        ([toString amountOutMin] ++ path ++ [dst, toString deadline]))
      amountIn now
  | BuilderOp.swapExactTokensForETH router amountIn amountOutMin path dst deadline =>
    addRaw st router
      (enc "swapExactTokensForETH"
        ([toString amountIn, toString amountOutMin] ++ path ++ [dst, toString deadline]))
      0 now
  | BuilderOp.approveAndSwap token router amountIn amountOutMin path dst deadline =>
    let st1 := addRaw st token (enc "approve" [router, toString amountIn]) 0 now
    addRaw st1 router
      (enc "swapExactTokensForTokens"
        ([toString amountIn, toString amountOutMin] ++ path ++ [dst, toString deadline]))
      0 now
  | BuilderOp.kyberSwap routerAddress data value => addRaw st routerAddress data value now
  | BuilderOp.pop =>
    { calls := st.calls.dropLast, operations := st.operations.dropLast }
  | BuilderOp.clear => { calls := [], operations := [] }

/-- A whole builder call chain from the fresh builder. -/
def applyOps (enc : Enc) (now : Nat) (ops : List BuilderOp) : BuilderQueue :=
  ops.foldl (applyOp enc now) emptyQueue

/-- `getTotalValue()`: reduce-sum of the queued call values. -/
def getTotalValue (st : BuilderQueue) : Nat :=
  st.calls.foldl (fun sum c => sum + c.value) 0

/-! ## Snapshot aliasing model (builder `getState`)

`getState()` returns `{calls: [...this.calls], operations:
[...this.operations], ...}` — fresh arrays whose elements are the same
objects the ledger holds. To reason about JS mutation through the snapshot
the object graph is made explicit: call and record objects live in heaps
addressed by naturals, and the builder's and the snapshot's arrays are
lists of addresses. Copying an array copies the address list; the heaps
are shared. -/

/-- A recorded operation object as stored on the heap; its `call` field is
itself a reference to a call object. -/
structure OpRecordObj where
  type : OperationType
  callRef : Nat
  timestamp : Nat
deriving DecidableEq, Repr

/-- The builder-plus-heap world. -/
structure LedgerWorld where
  callHeap : Nat → MegaCall
  opHeap : Nat → OpRecordObj
  builderCalls : List Nat
  builderOps : List Nat

/-- The live ledger's call values (what `getCalls()` would read). -/
def ledgerCalls (w : LedgerWorld) : List MegaCall := w.builderCalls.map w.callHeap

/-- The live ledger's operation-record values. -/
def ledgerOps (w : LedgerWorld) : List OpRecordObj := w.builderOps.map w.opHeap

/-- The live ledger's total value. -/
def ledgerTotalValue (w : LedgerWorld) : Nat :=
  (ledgerCalls w).foldl (fun sum c => sum + c.value) 0

/-- `BuilderState` (types.ts), as returned by `getState()`: array fields
hold object references. -/
structure BuilderState where
  calls : List Nat
  operations : List Nat
  totalValue : Nat
  chainId : Nat
deriving DecidableEq, Repr

/-- `getState()`: spread-copies of the two arrays (same element
references), the derived total value, and the chain id. -/
def getState (w : LedgerWorld) (chainId : Nat) : BuilderState :=
  { calls := w.builderCalls, operations := w.builderOps,
    totalValue := ledgerTotalValue w, chainId := chainId }

/-- What a caller can mutate on a snapshot: the snapshot's own arrays
(push/pop/splice/assign — `setCallsArray`/`setOpsArray` with the resulting
reference list), or a field of an element object reached through the
snapshot (`mutateCallObject`/`mutateOpObject`, a heap write). -/
inductive SnapMutation where
  | setCallsArray (new : List Nat)
  | setOpsArray (new : List Nat)
  | mutateCallObject (i : Nat) (newCall : MegaCall)
  | mutateOpObject (i : Nat) (newRecord : OpRecordObj)

/-- Mutations that touch only the snapshot's own arrays. -/
def SnapMutation.isArrayMutation : SnapMutation → Bool
  | SnapMutation.setCallsArray _ => true
  | SnapMutation.setOpsArray _ => true
  | _ => false

/-- Apply one snapshot mutation to the world and snapshot. -/
def applySnapMutation (ws : LedgerWorld × BuilderState) (m : SnapMutation) :
    LedgerWorld × BuilderState :=
  match m with
  | SnapMutation.setCallsArray newArr => (ws.1, { ws.2 with calls := newArr })
  | SnapMutation.setOpsArray newArr => (ws.1, { ws.2 with operations := newArr })
  | SnapMutation.mutateCallObject i newCall =>
    match ws.2.calls[i]? with
    | some r =>
      ({ ws.1 with callHeap := fun a => if a = r then newCall else ws.1.callHeap a }, ws.2)
    | none => ws
  | SnapMutation.mutateOpObject i newRecord =>
    match ws.2.operations[i]? with
    | some r =>
      ({ ws.1 with opHeap := fun a => if a = r then newRecord else ws.1.opHeap a }, ws.2)
    | none => ws

/-! ## Concrete sample inputs (used by witnesses and counterexamples) -/

/-- A `CallFailed(2, innerData)` revert payload whose inner data is a
standard `Error("transfer amount exceeds balance")` revert — the worked
example from the source's unit tests. -/
def callFailedSamplePayload : List Char :=
  ("0x85d9d0b8" ++
   "0000000000000000000000000000000000000000000000000000000000000002" ++
   "0000000000000000000000000000000000000000000000000000000000000040" ++
   "0000000000000000000000000000000000000000000000000000000000000064" ++
   "08c379a0" ++
   "0000000000000000000000000000000000000000000000000000000000000020" ++
   "000000000000000000000000000000000000000000000000000000000000001f" ++
   "7472616e7366657220616d6f756e7420657863656564732062616c616e636500").data

/-- The inner byte payload carried by `callFailedSamplePayload`. -/
def callFailedSampleInner : Bytes :=
  [8, 195, 121, 160, 0, 0, 0, 0, 0, 0, 0, 0, 0, 0, 0, 0,
   0, 0, 0, 0, 0, 0, 0, 0, 0, 0, 0, 0, 0, 0, 0, 0,
   0, 0, 0, 32, 0, 0, 0, 0, 0, 0, 0, 0, 0, 0, 0, 0,
   0, 0, 0, 0, 0, 0, 0, 0, 0, 0, 0, 0, 0, 0, 0, 0,
   0, 0, 0, 31, 116, 114, 97, 110, 115, 102, 101, 114, 32, 97, 109, 111,
   117, 110, 116, 32, 101, 120, 99, 101, 101, 100, 115, 32, 98, 97, 108, 97,
   110, 99, 101, 0]

/-- A syntactically valid `executeBatch` raw return payload encoding an
EMPTY `(bool, bytes)[]` array (offset word `0x20`, count word `0`). -/
def emptyTupleArrayRaw : List Char :=
  ("0x" ++
   "0000000000000000000000000000000000000000000000000000000000000020" ++
   "0000000000000000000000000000000000000000000000000000000000000000").data

/-- A receipt with no logs. -/
def emptyReceipt : Receipt := { logs := [], gasUsed := 0 }

/-- A sample queued call. -/
def sampleCall : MegaCall := { target := "0xdead", value := 1, callData := "0x01" }

/-- A chain environment in which every operation succeeds. -/
def sampleEnv : ChainEnv :=
  { readRequiredETH := Except.ok 3,
    simulateContract := fun _ _ _ _ => Except.ok ([], "request"),
    estimateContractGas := fun _ _ => Except.ok 100000,
    signTransaction := fun r => Except.ok ("signed:" ++ r),
    rpcRequest := fun _ _ => Except.ok { logs := [], gasUsed := 21000 },
    perfStart := 5,
    perfEnd := 12 }

/-- A chain environment in which the required-value read throws. -/
def sampleFailEnv : ChainEnv :=
  { sampleEnv with readRequiredETH := Except.error "boom" }

/-- A one-call builder world whose single call object sits at heap
address 0 and is referenced by both the ledger and any snapshot. -/
def sampleWorld : LedgerWorld :=
  { callHeap := fun _ => { target := "0xaaaa", value := 5, callData := "0x00" },
    opHeap := fun _ => { type := OperationType.custom, callRef := 0, timestamp := 0 },
    builderCalls := [0],
    builderOps := [0] }

theorem hexToBytes?_length : ∀ {l : List Char} {bs : Bytes},
    hexToBytes? l = some bs → l.length = 2 * bs.length := by
  intro l
  induction l using hexToBytes?.induct with
  | case1 =>
    intro bs h
    simp only [hexToBytes?, Option.some.injEq] at h
    simp [← h]
  | case2 c =>
    intro bs h
    simp [hexToBytes?] at h
  | case3 c1 c2 rest ih =>
    intro bs h
    simp only [hexToBytes?, Option.bind_eq_bind, Option.bind_eq_some] at h
    obtain ⟨hi, _, lo, _, bs', hbs', hcons⟩ := h
    have hlen := ih hbs'
    simp only [Option.some.injEq] at hcons
    subst hcons
    simp only [List.length_cons]
    omega

theorem flatten_byteToHexChars_length (bs : Bytes) :
    ((bs.map byteToHexChars).flatten).length = 2 * bs.length := by
  induction bs with
  | nil => rfl
  | cons b rest ih =>
    simp only [List.map_cons, List.flatten_cons, List.length_append,
      byteToHexChars, List.length_cons, List.length_nil, ih]
    omega

theorem bytesToHexChars_length (bs : Bytes) :
    (bytesToHexChars bs).length = 2 + 2 * bs.length := by
  simp only [bytesToHexChars, List.length_cons, flatten_byteToHexChars_length]
  omega

theorem word?_some_length {b : Bytes} {v : Nat} (h : word? b = some v) :
    32 ≤ b.length := by
  unfold word? at h
  split at h
  · assumption
  · exact absurd h (by simp)

theorem decodeUintBytes?_inner_length {b : Bytes} {idx : Nat} {inner : Bytes}
    (h : decodeUintBytes? b = some (idx, inner)) :
    inner.length + 32 ≤ b.length ∧ 64 ≤ b.length := by
  unfold decodeUintBytes? at h
  simp only [Option.bind_eq_bind, Option.bind_eq_some] at h
  obtain ⟨i, hi, off, hoff, len, hlen, heq⟩ := h
  have h1 := word?_some_length hi
  have h2 := word?_some_length hoff
  have h3 := word?_some_length hlen
  simp only [Option.some.injEq, Prod.mk.injEq] at heq
  obtain ⟨-, hinner⟩ := heq
  subst hinner
  simp only [List.length_take, List.length_drop] at *
  omega

/-- A `CallFailed` payload's decoded inner byte string, rendered back to a
hex string, is strictly shorter than the payload it came from (the
structural decrease that terminates the nested decoding recursion). -/
theorem callFailed_inner_chars_lt {chars : List Char} {idx : Nat} {inner : Bytes}
    (h10 : ¬ chars.length < 10)
    (h : (hexToBytes? (chars.drop 10)).bind decodeUintBytes? = some (idx, inner)) :
    (bytesToHexChars inner).length < chars.length := by
  rw [Option.bind_eq_some] at h
  obtain ⟨tb, htb, hdec⟩ := h
  have hlen1 : (chars.drop 10).length = 2 * tb.length := hexToBytes?_length htb
  have hlen2 := decodeUintBytes?_inner_length hdec
  have hlen3 := bytesToHexChars_length inner
  simp only [List.length_drop] at hlen1
  omega

/-- Any two fuel values strictly above the input length give the same
result: the fuel-free reading of `decodeRevertFuel` is well defined, i.e.
the nested `CallFailed` recursion of `decodeRevertError` terminates. -/
theorem decodeRevertFuel_congr (f1 : Nat) : ∀ (f2 : Nat) (chars : List Char),
    chars.length < f1 → chars.length < f2 →
    decodeRevertFuel f1 chars = decodeRevertFuel f2 chars := by
  induction f1 using Nat.strong_induction_on with
  | _ f1 ih =>
    intro f2 chars hf1 hf2
    match f1, hf1 with
    | n + 1, hf1 =>
    match f2, hf2 with
    | m + 1, hf2 =>
    simp only [decodeRevertFuel]
    by_cases h10 : chars.length < 10
    · simp only [if_pos h10]
    · simp only [if_neg h10]
      split
      · rfl
      · split
        · rfl
        · split
          · rename_i msg hlookup
            split
            · rename_i hcf
              split
              · rename_i idx inner hsome
                have hlt := callFailed_inner_chars_lt h10 hsome
                have heq := ih n (by omega) m (bytesToHexChars inner)
                  (by omega) (by omega)
                rw [heq]
              · rfl
            · rfl
          · rfl

/-- Rebase `decodeRevertError` onto any sufficiently large fuel. -/
theorem decodeRevertError_eq_fuel {f : Nat} {chars : List Char}
    (h : chars.length < f) :
    decodeRevertError chars = decodeRevertFuel f chars :=
  decodeRevertFuel_congr (chars.length + 1) f chars (Nat.lt_succ_self _) h

/-- Every custom-error message in the router's selector table is non-empty. -/
theorem customErrorTable_lookup_length_pos {sel : List Char} {msg : String}
    (h : customErrorTable.lookup sel = some msg) : 0 < msg.length := by
  simp only [customErrorTable, List.lookup] at h
  repeat' split at h
  all_goals simp only [Option.some.injEq, reduceCtorEq] at h
  all_goals (rw [← h]; decide)

/-- Every branch of `decodeRevertFuel` yields a non-empty string. -/
theorem decodeRevertFuel_length_pos (f : Nat) (chars : List Char) :
    0 < (decodeRevertFuel f chars).length := by
  cases f with
  | zero =>
    show 0 < noDataMsg.length
    decide
  | succ n =>
    simp only [decodeRevertFuel]
    split
    · decide
    · split
      · split
        · simp only [String.length_append]
          have : 0 < "Reverted: ".length := by decide
          omega
        · decide
      · split
        · split
          · simp only [String.length_append]
            have : 0 < "Panic: ".length := by decide
            omega
          · decide
        · split
          · rename_i msg hlookup
            have hmsg := customErrorTable_lookup_length_pos hlookup
            split
            · split
              · simp only [String.length_append]
                have : 0 < " failed → ".length := by decide
                omega
              · exact hmsg
            · exact hmsg
          · simp only [String.length_append]
            have : 0 < "Reverted with unknown selector ".length := by decide
            omega

/-! ## Claims -/

/-- C3: for every payload whose first four bytes are the `CallFailed`
selector `0x85d9d0b8`, `decodeRevertError` terminates and — when the tail
ABI-decodes as a `(uint256 index, bytes innerBytes)` pair — returns
`"Call #{index} failed → {m}"` where `m` is `decodeRevertError` applied
recursively to the inner bytes; when the tail does not decode as that
pair, it returns the fixed `CallFailed` message without recursing. -/
theorem decodeRevert_callFailed_spec (chars : List Char)
    (hsel : (chars.take 10).map Char.toLower = callFailedSelector) :
    (∀ idx inner,
      (hexToBytes? (chars.drop 10)).bind decodeUintBytes? = some (idx, inner) →
        decodeRevertError chars =
          "Call #" ++ toString idx ++ " failed → " ++
            decodeRevertError (bytesToHexChars inner))
    ∧ ((hexToBytes? (chars.drop 10)).bind decodeUintBytes? = none →
        decodeRevertError chars = "CallFailed: one of the batch calls reverted") := by
  have h10 : ¬ chars.length < 10 := by
    intro hlt
    have hl := congrArg List.length hsel
    have hsl : callFailedSelector.length = 10 := rfl
    simp only [List.length_map, List.length_take, hsl] at hl
    omega
  have hne1 : callFailedSelector ≠ errorSelector := by decide
  have hne2 : callFailedSelector ≠ panicSelector := by decide
  have hlookup : customErrorTable.lookup callFailedSelector =
      some "CallFailed: one of the batch calls reverted" := by rfl
  constructor
  · intro idx inner h
    have hlt := callFailed_inner_chars_lt h10 h
    show decodeRevertFuel (chars.length + 1) chars = _
    simp only [decodeRevertFuel, if_neg h10, hsel, if_neg hne1, if_neg hne2,
      hlookup, if_pos rfl, h, if_true]
    have hfix : decodeRevertFuel chars.length (bytesToHexChars inner) =
        decodeRevertError (bytesToHexChars inner) :=
      decodeRevertFuel_congr chars.length ((bytesToHexChars inner).length + 1)
        (bytesToHexChars inner) hlt (Nat.lt_succ_self _)
    rw [hfix]
  · intro h
    show decodeRevertFuel (chars.length + 1) chars = _
    simp only [decodeRevertFuel, if_neg h10, hsel, if_neg hne1, if_neg hne2,
      hlookup, if_pos rfl, h, if_true]

set_option maxRecDepth 100000 in
/-- C3 witness: the source test's nested example — `CallFailed` at index 2
wrapping a standard string revert — renders with both the outer index and
the fully decoded inner reason. -/
theorem decodeRevert_callFailed_spec_witness :
    decodeRevertError callFailedSamplePayload =
      "Call #2 failed → Reverted: transfer amount exceeds balance" := by
  rw [(decodeRevert_callFailed_spec callFailedSamplePayload (by decide)).1
    2 callFailedSampleInner (by decide)]
  rfl

/-- C4: `decodeRevertError` is total — it is a function on all character
strings, including empty, short, truncated and garbage payloads (every
throwing decode step is modelled by an `Option` failure that the function
handles) — and its output is a non-empty string on every classification
branch. -/
theorem decodeRevert_total_nonempty (chars : List Char) :
    0 < (decodeRevertError chars).length :=
  decodeRevertFuel_length_pos (chars.length + 1) chars

theorem parseFromLogs_length (receipt : Receipt) (callCount : Nat) :
    (parseFromLogs receipt callCount).length = callCount := by
  unfold parseFromLogs
  split <;> simp

set_option maxRecDepth 100000 in
/-- C1 counterexample: with `callCount = 2` and raw return bytes that
ABI-decode as an empty `(bool, bytes)[]` array, `parseCallResults` returns
0 entries, not 2 — the raw-return-bytes strategy returns whatever length
the payload encodes. -/
theorem parseCallResults_counterexample :
    (parseCallResults emptyReceipt 2 (some emptyTupleArrayRaw)).length ≠ 2 := by
  decide

/-- C1, amended: the `CallExecuted`-event strategy and the optimistic
fallback always return exactly `callCount` entries (as does any call with
absent or trivial raw return bytes, or raw bytes that fail to decode); but
when the raw-return-bytes strategy fires, the number of entries equals the
length of the decoded tuple array, which need not equal `callCount`. -/
theorem parseCallResults_length (receipt : Receipt) (callCount : Nat)
    (rawReturnData : Option (List Char)) :
    (parseCallResults receipt callCount rawReturnData).length =
      (match rawReturnData with
       | some raw =>
         if 2 < raw.length then
           match (hexToBytes? (raw.drop 2)).bind decodeResults? with
           | some results => results.length
           | none => callCount
         else callCount
       | none => callCount) := by
  unfold parseCallResults
  cases rawReturnData with
  | none => simp [parseFromLogs_length]
  | some raw =>
    by_cases h : 2 < raw.length
    · simp only [if_pos h]
      cases hdec : (hexToBytes? (raw.drop 2)).bind decodeResults? with
      | some results => simp
      | none => simp [parseFromLogs_length]
    · simp [if_neg h, parseFromLogs_length]

/-- C9: `buildSafeApproveCalls` produces exactly the reset-to-zero call
followed by the target approve call when the current allowance is non-zero
and differs from the amount, and exactly the single target approve call
otherwise; every produced call targets the token with value 0. -/
theorem buildSafeApproveCalls_spec (token spender : String)
    (amount currentAllowance : Nat) :
    (buildSafeApproveCalls token spender amount currentAllowance =
      if 0 < currentAllowance ∧ currentAllowance ≠ amount then
        [{ target := token, value := 0, callData := approveCalldata spender 0 },
         { target := token, value := 0, callData := approveCalldata spender amount }]
      else
        [{ target := token, value := 0, callData := approveCalldata spender amount }])
    ∧ ∀ c ∈ buildSafeApproveCalls token spender amount currentAllowance,
        c.target = token ∧ c.value = 0 := by
  constructor
  · unfold buildSafeApproveCalls
    split <;> simp
  · intro c hc
    unfold buildSafeApproveCalls at hc
    by_cases hcond : 0 < currentAllowance ∧ currentAllowance ≠ amount
    · simp only [if_pos hcond, List.mem_append, List.mem_singleton] at hc
      rcases hc with hc | hc <;> subst hc <;> exact ⟨rfl, rfl⟩
    · simp only [if_neg hcond, List.nil_append, List.mem_singleton] at hc
      subst hc
      exact ⟨rfl, rfl⟩

/-- C9 witness: a non-zero, different current allowance yields the two-call
reset-then-set sequence, and the theorem's per-call facts hold of its head. -/
theorem buildSafeApproveCalls_spec_witness :
    (buildSafeApproveCalls "0xtok" "0xspd" 1000 500 =
      [{ target := "0xtok", value := 0, callData := approveCalldata "0xspd" 0 },
       { target := "0xtok", value := 0, callData := approveCalldata "0xspd" 1000 }])
    ∧ (({ target := "0xtok", value := 0,
          callData := approveCalldata "0xspd" 0 } : MegaCall).target = "0xtok"
       ∧ ({ target := "0xtok", value := 0,
            callData := approveCalldata "0xspd" 0 } : MegaCall).value = 0) := by
  have h := buildSafeApproveCalls_spec "0xtok" "0xspd" 1000 500
  have h1 : buildSafeApproveCalls "0xtok" "0xspd" 1000 500 =
      [{ target := "0xtok", value := 0, callData := approveCalldata "0xspd" 0 },
       { target := "0xtok", value := 0, callData := approveCalldata "0xspd" 1000 }] := by
    rw [h.1]
    simp
  refine ⟨h1, h.2 _ ?_⟩
  rw [h1]
  exact List.mem_cons_self _ _

/-- C10: `sendETH(to, value)` appends exactly one call, targeting the
recipient with the given value and the fixed one-byte calldata `0x00`
(which is a single non-empty byte payload, so the router's `EmptyCalldata`
length check cannot reject it), and records exactly one operation for it. -/
theorem sendETH_spec (enc : Enc) (now : Nat) (st : BuilderQueue)
    (dst : String) (value : Nat) :
    ((applyOp enc now st (BuilderOp.sendETH dst value)).calls =
      st.calls ++ [{ target := dst, value := value, callData := "0x00" }])
    ∧ ((applyOp enc now st (BuilderOp.sendETH dst value)).operations =
        st.operations ++
          [{ type := OperationType.custom,
             call := { target := dst, value := value, callData := "0x00" },
             metadata := some [("type", "sendETH"), ("to", dst),
               ("value", toString value)],
             timestamp := now }])
    ∧ hexToBytes? (("0x00" : String).data.drop 2) = some [0] :=
  ⟨rfl, rfl, by decide⟩

theorem recordOperation_lengths (st : BuilderQueue) (type : OperationType)
    (call : MegaCall) (metadata : Option (List (String × String))) (now : Nat) :
    (recordOperation st type call metadata now).calls.length = st.calls.length ∧
    (recordOperation st type call metadata now).operations.length =
      st.operations.length + 1 := by
  simp [recordOperation]

theorem addRaw_lengths (st : BuilderQueue) (target callData : String)
    (value now : Nat) :
    (addRaw st target callData value now).calls.length = st.calls.length + 1 ∧
    (addRaw st target callData value now).operations.length =
      st.operations.length + 1 := by
  simp [addRaw, recordOperation]

theorem foldl_pushBoth_lengths {α : Type} (f : BuilderQueue → α → BuilderQueue)
    (hf : ∀ st a, (f st a).calls.length = st.calls.length + 1 ∧
      (f st a).operations.length = st.operations.length + 1) :
    ∀ (l : List α) (st : BuilderQueue),
      (l.foldl f st).calls.length = st.calls.length + l.length ∧
      (l.foldl f st).operations.length = st.operations.length + l.length := by
  intro l
  induction l with
  | nil => intro st; simp
  | cons a rest ih =>
    intro st
    have h1 := hf st a
    have h2 := ih (f st a)
    simp only [List.foldl_cons, List.length_cons]
    omega

theorem applyOp_preserves_length_eq (enc : Enc) (now : Nat) (st : BuilderQueue)
    (op : BuilderOp) (h : st.calls.length = st.operations.length) :
    (applyOp enc now st op).calls.length =
      (applyOp enc now st op).operations.length := by
  cases op with
  | safeApprove token spender amount currentAllowance =>
    have hstep := foldl_pushBoth_lengths
      (fun acc call =>
        recordOperation { acc with calls := acc.calls ++ [call] }
          OperationType.safeApprove call
          (some [("token", token), ("spender", spender),
            ("amount", toString amount)]) now)
      (by intro st' a; simp [recordOperation])
      (buildSafeApproveCalls token spender amount currentAllowance) st
    simp only [applyOp]
    omega
  | multiTransfer token transfers =>
    have hstep := foldl_pushBoth_lengths
      (fun acc t => addRaw acc token (enc "transfer" [t.1, toString t.2]) 0 now)
      (by intro st' a; simp [addRaw, recordOperation])
      transfers st
    simp only [applyOp]
    omega
  | pop => simp only [applyOp, List.length_dropLast]; omega
  | clear => simp [applyOp]
  | _ => simp [applyOp, addRaw, recordOperation, h]

/-- C8: after every sequence of builder operations applied to the fresh
builder, the call list and the operation-record list have equal length —
every operation appends to or removes from both together. -/
theorem calls_operations_length_eq (enc : Enc) (now : Nat) (ops : List BuilderOp) :
    (applyOps enc now ops).calls.length =
      (applyOps enc now ops).operations.length := by
  suffices h : ∀ (l : List BuilderOp) (st : BuilderQueue),
      st.calls.length = st.operations.length →
      (l.foldl (applyOp enc now) st).calls.length =
        (l.foldl (applyOp enc now) st).operations.length by
    exact h ops emptyQueue rfl
  intro l
  induction l with
  | nil => intro st hst; simpa using hst
  | cons op rest ih =>
    intro st hst
    exact ih (applyOp enc now st op) (applyOp_preserves_length_eq enc now st op hst)

/-- C6: for a fixed address with no intervening `resetNonce`, two
successive `getNextNonce` calls return strictly increasing values whatever
pending nonces the network reports; each issued nonce is
`max(networkNonce, lastIssued + 1)` and is immediately cached. -/
theorem getNextNonce_monotone (net1 net2 : Int) (cache : NonceCache)
    (address : String) :
    ((getNextNonce net1 cache address).1 <
      (getNextNonce net2 (getNextNonce net1 cache address).2 address).1)
    ∧ ((getNextNonce net1 cache address).1 =
        max net1 (((cache.lookup (lowerStr address)).getD (-1)) + 1))
    ∧ (((getNextNonce net1 cache address).2.lookup (lowerStr address)) =
        some (getNextNonce net1 cache address).1)
    ∧ ((getNextNonce net2 (getNextNonce net1 cache address).2 address).1 =
        max net2 ((getNextNonce net1 cache address).1 + 1)) := by
  simp only [getNextNonce, List.lookup, beq_self_eq_true, Option.getD_some]
  refine ⟨?_, ?_, ?_, ?_⟩ <;> first | trivial | omega

theorem simulate_empty (account : Option String) (env : ChainEnv) :
    simulate [] account env = (Except.error MegaFlowErrorCode.EMPTY_BATCH, []) := by
  simp [simulate]

/-- C5: `simulate()` raises the typed `EMPTY_BATCH` error, with no network
operation performed, exactly when the ledger is empty; on every non-empty
ledger it returns a value (never propagates an exception), and any failure
value carries the raw error message together with its decoded revert
reason and best-effort failed-call index. -/
theorem simulate_spec (calls : List MegaCall) (account : Option String)
    (env : ChainEnv) :
    (calls = [] →
      simulate calls account env = (Except.error MegaFlowErrorCode.EMPTY_BATCH, []))
    ∧ (calls ≠ [] → ∃ r, (simulate calls account env).1 = Except.ok r)
    ∧ (∀ r, (simulate calls account env).1 = Except.ok r → r.success = false →
        ∃ e, r.error = some e
          ∧ r.revertReason = some (decodeRevertError e.data)
          ∧ r.failedCallIndex = extractFailedCallIndex e.data
          ∧ r.results = none ∧ r.gasEstimate = none) := by
  refine ⟨?_, ?_, ?_⟩
  · intro h
    subst h
    simp [simulate]
  · intro hne
    have hempty : calls.isEmpty = false := by
      cases calls
      · exact absurd rfl hne
      · rfl
    unfold simulate
    rw [hempty]
    simp only [Bool.false_eq_true, if_false]
    split
    · exact ⟨_, rfl⟩
    · split
      · exact ⟨_, rfl⟩
      · split
        · exact ⟨_, rfl⟩
        · exact ⟨_, rfl⟩
  · intro r hr hfail
    unfold simulate at hr
    by_cases hempty : calls.isEmpty
    · rw [if_pos hempty] at hr
      exact absurd hr (by simp)
    · rw [if_neg hempty] at hr
      split at hr
      · rename_i e tr h1
        simp only [Except.ok.injEq] at hr
        exact ⟨e, by simp [← hr, simFailure]⟩
      · rename_i v tr h1
        split at hr
        · rename_i e h2
          simp only [Except.ok.injEq] at hr
          exact ⟨e, by simp [← hr, simFailure]⟩
        · rename_i result req h2
          split at hr
          · rename_i e h3
            simp only [Except.ok.injEq] at hr
            exact ⟨e, by simp [← hr, simFailure]⟩
          · rename_i g h3
            simp only [Except.ok.injEq] at hr
            rw [← hr] at hfail
            simp at hfail

/-- C5 witness: the empty ledger raises `EMPTY_BATCH` with an empty network
trace, and a one-call ledger whose required-value read throws still gets a
returned value. -/
theorem simulate_spec_witness :
    (simulate [] none sampleEnv = (Except.error MegaFlowErrorCode.EMPTY_BATCH, []))
    ∧ (∃ r, (simulate [sampleCall] none sampleFailEnv).1 = Except.ok r) :=
  ⟨(simulate_spec [] none sampleEnv).1 rfl,
   (simulate_spec [sampleCall] none sampleFailEnv).2.1 (by simp)⟩

/-- C7: `executeSync` and `executeRealtime` are semantically identical:
whenever the chain's response does not depend on which RPC method name is
used (the two names address the same capability), the two functions agree
on every builder state, option set and environment — they perform the same
precondition checks, required-value computation, simulate-then-sign steps,
and produce the same result; the RPC method name is their only difference. -/
theorem executeSync_eq_executeRealtime (calls : List MegaCall)
    (walletConnected : Bool) (account : Option String)
    (options : ExecuteOptions) (env : ChainEnv)
    (h : ∀ m m' tx, env.rpcRequest m tx = env.rpcRequest m' tx) :
    executeSync calls walletConnected account options env =
      executeRealtime calls walletConnected account options env := by
  unfold executeSync executeRealtime
  simp only [h "eth_sendRawTransactionSync" "realtime_sendRawTransaction"]

/-- C7 witness: with a method-agnostic environment, a concrete one-call
batch gets the identical result from both submission variants. -/
theorem executeSync_eq_executeRealtime_witness :
    executeSync [sampleCall] true (some "0xacc") {} sampleEnv =
      executeRealtime [sampleCall] true (some "0xacc") {} sampleEnv :=
  executeSync_eq_executeRealtime [sampleCall] true (some "0xacc") {} sampleEnv
    (fun _ _ _ => rfl)

/-- C2 counterexample: `getState()` copies the arrays but shares the call
objects; mutating the `value` field of the snapshot's first call object
changes the live ledger's calls. -/
theorem getState_mutation_counterexample :
    ledgerCalls (applySnapMutation (sampleWorld, getState sampleWorld 4326)
        (SnapMutation.mutateCallObject 0
          { target := "0xaaaa", value := 7, callData := "0x00" })).1
      ≠ ledgerCalls sampleWorld := by
  decide

theorem applySnapMutation_array_fst (ws : LedgerWorld × BuilderState)
    (m : SnapMutation) (h : m.isArrayMutation = true) :
    (applySnapMutation ws m).1 = ws.1 := by
  cases m with
  | setCallsArray newArr => rfl
  | setOpsArray newArr => rfl
  | mutateCallObject i newCall => simp [SnapMutation.isArrayMutation] at h
  | mutateOpObject i newRecord => simp [SnapMutation.isArrayMutation] at h

theorem foldl_array_mutations_fst (muts : List SnapMutation) :
    ∀ (ws : LedgerWorld × BuilderState),
      (∀ m ∈ muts, m.isArrayMutation = true) →
      (muts.foldl applySnapMutation ws).1 = ws.1 := by
  induction muts with
  | nil => intro ws _; rfl
  | cons m rest ih =>
    intro ws h
    rw [List.foldl_cons]
    rw [ih (applySnapMutation ws m) (fun m' hm' => h m' (List.mem_cons_of_mem m hm'))]
    exact applySnapMutation_array_fst ws m (h m (List.mem_cons_self m rest))

/-- C2, amended: mutating the value returned by `getState()` at the ARRAY
level — replacing, adding or removing elements of its `calls` or
`operations` arrays — never changes the live ledger: the builder's calls,
operations and total value are exactly what they were when the snapshot
was taken. (The element objects themselves are shared with the ledger, so
mutating a `Call` or record object through the snapshot does alias the
ledger, as the counterexample shows: `getState` is a shallow copy.) -/
theorem getState_array_mutation_frame (w : LedgerWorld) (chainId : Nat)
    (muts : List SnapMutation) (h : ∀ m ∈ muts, m.isArrayMutation = true) :
    ledgerCalls (muts.foldl applySnapMutation (w, getState w chainId)).1 =
      ledgerCalls w
    ∧ ledgerOps (muts.foldl applySnapMutation (w, getState w chainId)).1 =
        ledgerOps w
    ∧ ledgerTotalValue (muts.foldl applySnapMutation (w, getState w chainId)).1 =
        ledgerTotalValue w := by
  rw [foldl_array_mutations_fst muts (w, getState w chainId) h]
  exact ⟨rfl, rfl, rfl⟩

/-- C2 witness: clearing the snapshot's calls array and rewriting its
operations array leaves the concrete one-call ledger untouched. -/
theorem getState_array_mutation_frame_witness :
    ledgerCalls ([SnapMutation.setCallsArray [], SnapMutation.setOpsArray [9]].foldl
        applySnapMutation (sampleWorld, getState sampleWorld 4326)).1 =
      ledgerCalls sampleWorld :=
  (getState_array_mutation_frame sampleWorld 4326
    [SnapMutation.setCallsArray [], SnapMutation.setOpsArray [9]]
    (by
      intro m hm
      simp only [List.mem_cons, List.not_mem_nil, or_false] at hm
      rcases hm with rfl | rfl <;> rfl)).1

end MegaFlow
